import Mathlib

/-!
Verification of the RoverMaster base driver (src/rover_driver/src/base.cpp).

The numeric pipeline of BaseDriver::set_motors (velocity mixer, saturation,
DSHOT encoding) is embedded over ℚ; C doubles are modelled as exact rationals
and std::round as round-half-away-from-zero.  The scheduler tick serial_out
and the subscription callback are embedded as pure state transformers on an
explicit pending-command slot.  The MultiWii wire codec (MultiWii/protocol.h)
and the small utility headers (util/clamp.h, util/assert.h) are not part of
the provided sources; they are modelled from the specification where needed,
each such definition marked in its doc comment.
-/

namespace RoverBase

/-- Modelled from the spec: util/clamp.h is absent from the sources.  The spec
says out-of-range values are clamped to the given range (spec 3, 4.1, 4.2):
clamp(v, lo, hi) pins v into [lo, hi]. -/
def clamp (v lo hi : ℚ) : ℚ := max lo (min v hi)

/-- C std::round, used at base.cpp lines 73 and 76: rounds half away from
zero. -/
def cround (x : ℚ) : ℤ := if 0 ≤ x then ⌊x + 1/2⌋ else ⌈x - 1/2⌉

/-- The fixed wheel layout matrix V (base.cpp lines 17 to 24): one row per
motor, columns are the forward, lateral and rotational contributions. -/
def V (i : Fin 4) (j : Fin 3) : ℚ :=
  match i, j with
  | 0, 0 => 1 | 0, 1 => -1 | 0, 2 => -1
  | 1, 0 => 1 | 1, 1 => 1  | 1, 2 => -1
  | 2, 0 => 1 | 2, 1 => 1  | 2, 2 => 1
  | 3, 0 => 1 | 3, 1 => -1 | 3, 2 => 1

/-- max_velocity (base.cpp line 26). -/
def max_velocity : ℚ := 50

/-- comb_limit (base.cpp line 29). -/
def comb_limit : ℚ := 2

/-- DSHOT_NEUTRAL (base.cpp line 30). -/
def DSHOT_NEUTRAL : ℚ := 1500

/-- The per-component input clamp of set_motors (base.cpp lines 56 to 58). -/
def clampIn (x : ℚ) : ℚ := clamp x (-1) 1

/-- The dot product of an input triple with row i of V (base.cpp line 62). -/
def rawMix (vx vy vr : ℚ) (i : Fin 4) : ℚ :=
  vx * V i 0 + vy * V i 1 + vr * V i 2

/-- Wheel speed i as mixed from the clamped inputs (base.cpp lines 56 to 62). -/
def mixed (vx vy vr : ℚ) (i : Fin 4) : ℚ :=
  rawMix (clampIn vx) (clampIn vy) (clampIn vr) i

/-- The amplitude accumulated by the loop at base.cpp lines 60 to 64:
the maximum of 0 and the four absolute wheel speeds. -/
def amplitude (vx vy vr : ℚ) : ℚ :=
  max (max (max (max 0 |mixed vx vy vr 0|) |mixed vx vy vr 1|)
    |mixed vx vy vr 2|) |mixed vx vy vr 3|

/-- amplitude divided by comb_limit (base.cpp line 66). -/
def scaledAmp (vx vy vr : ℚ) : ℚ := amplitude vx vy vr / comb_limit

/-- Wheel speed i after the proportional saturation of base.cpp lines 67
to 70. -/
def wheel (vx vy vr : ℚ) (i : Fin 4) : ℚ :=
  if 1 < scaledAmp vx vy vr then mixed vx vy vr i / scaledAmp vx vy vr
  else mixed vx vy vr i

/-- cmd_vel for wheel i: round(DSHOT_NEUTRAL + max_velocity * v[i]) at
base.cpp line 73, as a rational (the C variable is a double holding an
integral value). -/
def cmd_vel (vx vy vr : ℚ) (i : Fin 4) : ℚ :=
  ((cround (DSHOT_NEUTRAL + max_velocity * wheel vx vy vr i) : ℤ) : ℚ)

/-- motor[i]: cmd_vel clamped to the envelope then rounded again
(base.cpp lines 74 to 76). -/
def motor (vx vy vr : ℚ) (i : Fin 4) : ℤ :=
  cround (clamp (cmd_vel vx vy vr i)
    (DSHOT_NEUTRAL - max_velocity * comb_limit)
    (DSHOT_NEUTRAL + max_velocity * comb_limit))

/-- The condition of the sanity-check ASSERT at base.cpp lines 78 to 80
(util/assert.h is absent from the sources; the spec, section 7, says a
violation terminates the process). -/
def assertOK (vx vy vr : ℚ) : Prop :=
  ∀ i, 1400 ≤ motor vx vy vr i ∧ motor vx vy vr i ≤ 1600

instance (vx vy vr : ℚ) : Decidable (assertOK vx vy vr) := by
  unfold assertOK; infer_instance

/-- The four motor values in order, as stored into msp_set_motor.motor. -/
def motorList (vx vy vr : ℚ) : List ℤ :=
  [motor vx vy vr 0, motor vx vy vr 1, motor vx vy vr 2, motor vx vy vr 3]

/-- A 3-vector of a geometry_msgs Twist. -/
structure Vec3 where
  x : ℚ
  y : ℚ
  z : ℚ
deriving DecidableEq

/-- A geometry_msgs Twist message. -/
structure Twist where
  linear : Vec3
  angular : Vec3
deriving DecidableEq

/-- The subscription callback on base/velocity/set (base.cpp lines 161 to
171): zeroes linear.z, angular.x and angular.y in place, then stores the
message in the pending slot. -/
def on_vel_set (msg : Twist) : Twist :=
  { msg with
    linear := { msg.linear with z := 0 }
    angular := { msg.angular with x := 0, y := 0 } }

/-- The in-place effect of set_motors on the consumed message: the three
planar fields are passed by reference (base.cpp line 54, lines 144 to 145)
and clamped in place (lines 56 to 58). -/
def set_motors_msg (m : Twist) : Twist :=
  { m with
    linear := { m.linear with x := clampIn m.linear.x, y := clampIn m.linear.y }
    angular := { m.angular with z := clampIn m.angular.z } }

/-- The frames serial_out can write to the serial link. -/
inductive Frame
  | setMotor (m : List ℤ)
  | qryRawImu
  | qryAttitude
deriving DecidableEq

/-- The observable result of one serial_out tick. -/
structure TickOut where
  frames : List Frame
  echo : Option Twist
  pending : Option Twist
deriving DecidableEq

/-- serial_out (base.cpp lines 141 to 153): if a command is pending, encode
and transmit the motor frame, publish the (clamp-mutated) message on
base/velocity/get and clear the slot; then always transmit the two telemetry
queries. -/
def serial_out (pending : Option Twist) : TickOut :=
  match pending with
  | some m =>
      { frames := [Frame.setMotor (motorList m.linear.x m.linear.y m.angular.z),
                   Frame.qryRawImu, Frame.qryAttitude]
        echo := some (set_motors_msg m)
        pending := none }
  | none =>
      { frames := [Frame.qryRawImu, Frame.qryAttitude]
        echo := none
        pending := none }

/-- Modelled from the spec: MultiWii/protocol.h is absent from the sources.
XOR checksum over the length, opcode and payload bytes of a frame
(spec 4.3: opcode plus payload length plus payload plus checksum). -/
def checksum (bs : List ℕ) : ℕ := bs.foldl Nat.xor 0

/-- Modelled from the spec: outbound framing (spec 4.3, 6): two sync bytes,
then payload length, opcode, payload and the checksum byte. -/
def mspEncode (op : ℕ) (payload : List ℕ) : List ℕ :=
  36 :: 77 :: payload.length :: op :: (payload ++ [checksum (payload.length :: op :: payload)])

/-- Modelled from the spec: cursor state of the incremental inbound parser
(spec 4.3: seeking sync bytes, reading length, reading payload, reading
checksum, frame complete). -/
inductive RxState
  | seek1
  | seek2
  | rlen
  | rcmd (n : ℕ)
  | rdata (n : ℕ) (op : ℕ) (acc : List ℕ)
  | rsum (n : ℕ) (op : ℕ) (acc : List ℕ)
  | complete (op : ℕ) (pay : List ℕ)
deriving DecidableEq

/-- Modelled from the spec: feed(byte) of the incremental parser (spec 4.3).
Returns the next state and true exactly when a complete, checksum-valid
frame has just been assembled; a checksum mismatch silently resynchronizes. -/
def recv (s : RxState) (b : ℕ) : RxState × Bool :=
  match s with
  | .seek1 => (if b = 36 then .seek2 else .seek1, false)
  | .seek2 => (if b = 77 then .rlen else .seek1, false)
  | .rlen => (.rcmd b, false)
  | .rcmd n => (if n = 0 then .rsum 0 b [] else .rdata n b [], false)
  | .rdata n op acc =>
      (if acc.length + 1 < n then .rdata n op (acc ++ [b])
       else .rsum n op (acc ++ [b]), false)
  | .rsum n op acc =>
      if b = checksum (n :: op :: acc) then (.complete op acc, true)
      else (.seek1, false)
  | .complete _ _ => (if b = 36 then .seek2 else .seek1, false)

/-- Feed a byte list one byte at a time, starting from a state-flag pair;
the flag of the result is the return value of the last feed. -/
def feedFrom (p : RxState × Bool) (bs : List ℕ) : RxState × Bool :=
  bs.foldl (fun q b => recv q.1 b) p

/-- Feed a byte list one byte at a time from a fresh state. -/
def feedAll (s : RxState) (bs : List ℕ) : RxState × Bool :=
  feedFrom (s, false) bs

/-! Basic facts about clamp and cround. -/

lemma le_clamp (v lo hi : ℚ) : lo ≤ clamp v lo hi := le_max_left lo (min v hi)

lemma clamp_le (v lo hi : ℚ) (h : lo ≤ hi) : clamp v lo hi ≤ hi :=
  max_le h (min_le_right v hi)

lemma clamp_eq_self (v lo hi : ℚ) (h1 : lo ≤ v) (h2 : v ≤ hi) : clamp v lo hi = v := by
  unfold clamp
  rw [min_eq_left h2, max_eq_right h1]

lemma clampIn_eq_self (x : ℚ) (h1 : -1 ≤ x) (h2 : x ≤ 1) : clampIn x = x :=
  clamp_eq_self x (-1) 1 h1 h2

lemma cround_intCast (z : ℤ) : cround (z : ℚ) = z := by
  unfold cround
  rcases le_or_lt 0 ((z:ℚ)) with h | h
  · rw [if_pos h, show ((z:ℚ) + 1/2) = 1/2 + (z:ℚ) by ring, Int.floor_add_int,
      Int.floor_eq_iff.mpr (show ((0:ℤ):ℚ) ≤ 1/2 ∧ (1/2:ℚ) < 0 + 1 by norm_num), zero_add]
  · rw [if_neg (not_le.mpr h), show ((z:ℚ) - 1/2) = -(1/2) + (z:ℚ) by ring, Int.ceil_add_int,
      Int.ceil_eq_iff.mpr (show ((0:ℤ):ℚ) - 1 < -(1/2) ∧ (-(1/2):ℚ) ≤ 0 by norm_num), zero_add]

lemma cround_eq (q : ℚ) (z : ℤ) (h0 : 0 ≤ q) (h1 : (z:ℚ) ≤ q + 1/2) (h2 : q + 1/2 < z + 1) :
    cround q = z := by
  unfold cround
  rw [if_pos h0]
  exact Int.floor_eq_iff.mpr ⟨h1, h2⟩

lemma le_cround (q : ℚ) (lo : ℤ) (h : (lo:ℚ) ≤ q) : lo ≤ cround q := by
  unfold cround
  rcases le_or_lt 0 q with h0 | h0
  · rw [if_pos h0]
    exact Int.le_floor.mpr (by linarith)
  · rw [if_neg (not_le.mpr h0)]
    exact Int.le_ceil_iff.mpr (by linarith)

lemma cround_le (q : ℚ) (hi : ℤ) (h : q ≤ hi) : cround q ≤ hi := by
  unfold cround
  rcases le_or_lt 0 q with h0 | h0
  · rw [if_pos h0]
    exact Int.lt_add_one_iff.mp (Int.floor_lt.mpr (by push_cast; linarith))
  · rw [if_neg (not_le.mpr h0)]
    exact Int.ceil_le.mpr (by linarith)

/-! The safety envelope. -/

lemma envelope_lo : DSHOT_NEUTRAL - max_velocity * comb_limit = 1400 := by
  norm_num [DSHOT_NEUTRAL, max_velocity, comb_limit]

lemma envelope_hi : DSHOT_NEUTRAL + max_velocity * comb_limit = 1600 := by
  norm_num [DSHOT_NEUTRAL, max_velocity, comb_limit]

lemma motor_envelope (vx vy vr : ℚ) (i : Fin 4) :
    1400 ≤ motor vx vy vr i ∧ motor vx vy vr i ≤ 1600 := by
  unfold motor
  rw [envelope_lo, envelope_hi]
  constructor
  · exact le_cround _ 1400 (by exact_mod_cast le_clamp (cmd_vel vx vy vr i) 1400 1600)
  · exact cround_le _ 1600
      (by exact_mod_cast clamp_le (cmd_vel vx vy vr i) 1400 1600 (by norm_num))

/-- Evaluation of a motor value from the value of its wheel speed. -/
lemma motor_eval (vx vy vr : ℚ) (i : Fin 4) (z : ℤ)
    (h : cround (DSHOT_NEUTRAL + max_velocity * wheel vx vy vr i) = z)
    (hlo : 1400 ≤ z) (hhi : z ≤ 1600) : motor vx vy vr i = z := by
  unfold motor cmd_vel
  rw [h, envelope_lo, envelope_hi,
    clamp_eq_self _ _ _ (by exact_mod_cast hlo) (by exact_mod_cast hhi), cround_intCast]

/-! Evaluation of the mixing stage. -/

lemma rawMix_row0 (vx vy vr : ℚ) : rawMix vx vy vr 0 = vx - vy - vr := by
  simp only [rawMix, V]; ring

lemma rawMix_row1 (vx vy vr : ℚ) : rawMix vx vy vr 1 = vx + vy - vr := by
  simp only [rawMix, V]; ring

lemma rawMix_row2 (vx vy vr : ℚ) : rawMix vx vy vr 2 = vx + vy + vr := by
  simp only [rawMix, V]; ring

lemma rawMix_row3 (vx vy vr : ℚ) : rawMix vx vy vr 3 = vx - vy + vr := by
  simp only [rawMix, V]; ring

lemma mixed_unclamped (vx vy vr : ℚ) (hx1 : -1 ≤ vx) (hx2 : vx ≤ 1) (hy1 : -1 ≤ vy)
    (hy2 : vy ≤ 1) (hr1 : -1 ≤ vr) (hr2 : vr ≤ 1) (i : Fin 4) :
    mixed vx vy vr i = rawMix vx vy vr i := by
  unfold mixed
  rw [clampIn_eq_self vx hx1 hx2, clampIn_eq_self vy hy1 hy2, clampIn_eq_self vr hr1 hr2]

lemma mixed_eval_all (vx vy vr : ℚ) (hx1 : -1 ≤ vx) (hx2 : vx ≤ 1) (hy1 : -1 ≤ vy)
    (hy2 : vy ≤ 1) (hr1 : -1 ≤ vr) (hr2 : vr ≤ 1) :
    mixed vx vy vr 0 = vx - vy - vr ∧ mixed vx vy vr 1 = vx + vy - vr ∧
    mixed vx vy vr 2 = vx + vy + vr ∧ mixed vx vy vr 3 = vx - vy + vr := by
  refine ⟨?_, ?_, ?_, ?_⟩ <;>
    rw [mixed_unclamped vx vy vr hx1 hx2 hy1 hy2 hr1 hr2]
  exacts [rawMix_row0 vx vy vr, rawMix_row1 vx vy vr, rawMix_row2 vx vy vr, rawMix_row3 vx vy vr]

lemma amplitude_eval (vx vy vr m0 m1 m2 m3 : ℚ)
    (h0 : mixed vx vy vr 0 = m0) (h1 : mixed vx vy vr 1 = m1)
    (h2 : mixed vx vy vr 2 = m2) (h3 : mixed vx vy vr 3 = m3) :
    amplitude vx vy vr = max (max (max (max 0 |m0|) |m1|) |m2|) |m3| := by
  unfold amplitude
  rw [h0, h1, h2, h3]

lemma scaledAmp_eq (vx vy vr : ℚ) : scaledAmp vx vy vr = amplitude vx vy vr / 2 := by
  rw [scaledAmp, comb_limit]

lemma wheel_no_sat (vx vy vr : ℚ) (h : amplitude vx vy vr ≤ 2) (i : Fin 4) :
    wheel vx vy vr i = mixed vx vy vr i := by
  unfold wheel
  rw [if_neg]
  rw [scaledAmp_eq]
  linarith

lemma wheel_sat (vx vy vr : ℚ) (h : 2 < amplitude vx vy vr) (i : Fin 4) :
    wheel vx vy vr i = mixed vx vy vr i / (amplitude vx vy vr / 2) := by
  unfold wheel
  rw [scaledAmp_eq, if_pos (by linarith)]

lemma cround_lin (w : ℚ) (z : ℤ) (h : DSHOT_NEUTRAL + max_velocity * w = (z:ℚ)) :
    cround (DSHOT_NEUTRAL + max_velocity * w) = z := by
  rw [h, cround_intCast]

/-! The forward-command scenario (vx, vy, vr) = (1, 0, 0). -/

lemma scenario_forward :
    (wheel 1 0 0 0 = 1 ∧ wheel 1 0 0 1 = 1 ∧ wheel 1 0 0 2 = 1 ∧ wheel 1 0 0 3 = 1) ∧
    amplitude 1 0 0 = 1 ∧ motorList 1 0 0 = [1550, 1550, 1550, 1550] := by
  obtain ⟨m0, m1, m2, m3⟩ := mixed_eval_all 1 0 0 (by norm_num) (by norm_num) (by norm_num)
    (by norm_num) (by norm_num) (by norm_num)
  norm_num at m0 m1 m2 m3
  have hamp : amplitude 1 0 0 = 1 := by
    rw [amplitude_eval 1 0 0 _ _ _ _ m0 m1 m2 m3]
    norm_num [max_def]
  have hns : amplitude 1 0 0 ≤ 2 := by rw [hamp]; norm_num
  have hw0 : wheel 1 0 0 0 = 1 := by rw [wheel_no_sat 1 0 0 hns 0, m0]
  have hw1 : wheel 1 0 0 1 = 1 := by rw [wheel_no_sat 1 0 0 hns 1, m1]
  have hw2 : wheel 1 0 0 2 = 1 := by rw [wheel_no_sat 1 0 0 hns 2, m2]
  have hw3 : wheel 1 0 0 3 = 1 := by rw [wheel_no_sat 1 0 0 hns 3, m3]
  have hlin : DSHOT_NEUTRAL + max_velocity * (1:ℚ) = ((1550:ℤ):ℚ) := by
    norm_num [DSHOT_NEUTRAL, max_velocity]
  refine ⟨⟨hw0, hw1, hw2, hw3⟩, hamp, ?_⟩
  unfold motorList
  rw [motor_eval 1 0 0 0 1550 (by rw [hw0]; exact cround_lin 1 1550 hlin) (by norm_num) (by norm_num),
    motor_eval 1 0 0 1 1550 (by rw [hw1]; exact cround_lin 1 1550 hlin) (by norm_num) (by norm_num),
    motor_eval 1 0 0 2 1550 (by rw [hw2]; exact cround_lin 1 1550 hlin) (by norm_num) (by norm_num),
    motor_eval 1 0 0 3 1550 (by rw [hw3]; exact cround_lin 1 1550 hlin) (by norm_num) (by norm_num)]

/-- Claim C1: for every real-valued input triple, all four motor values computed
by set_motors lie in the safety envelope [1400, 1600] before transmission, so
the process-terminating sanity-check assertion after clamping always passes. -/
theorem C1_envelope_assert (vx vy vr : ℚ) : assertOK vx vy vr :=
  fun i => motor_envelope vx vy vr i

/-- Claim C8: the input vx = vy = vr = 0 encodes to the motor command
[1500, 1500, 1500, 1500] exactly. -/
theorem C8_zero_encodes_neutral : motorList 0 0 0 = [1500, 1500, 1500, 1500] := by
  obtain ⟨m0, m1, m2, m3⟩ := mixed_eval_all 0 0 0 (by norm_num) (by norm_num) (by norm_num)
    (by norm_num) (by norm_num) (by norm_num)
  norm_num at m0 m1 m2 m3
  have hns : amplitude 0 0 0 ≤ 2 := by
    rw [amplitude_eval 0 0 0 _ _ _ _ m0 m1 m2 m3]
    norm_num [max_def]
  have hlin : DSHOT_NEUTRAL + max_velocity * (0:ℚ) = ((1500:ℤ):ℚ) := by
    norm_num [DSHOT_NEUTRAL, max_velocity]
  unfold motorList
  rw [motor_eval 0 0 0 0 1500 (by rw [wheel_no_sat 0 0 0 hns 0, m0]; exact cround_lin 0 1500 hlin)
      (by norm_num) (by norm_num),
    motor_eval 0 0 0 1 1500 (by rw [wheel_no_sat 0 0 0 hns 1, m1]; exact cround_lin 0 1500 hlin)
      (by norm_num) (by norm_num),
    motor_eval 0 0 0 2 1500 (by rw [wheel_no_sat 0 0 0 hns 2, m2]; exact cround_lin 0 1500 hlin)
      (by norm_num) (by norm_num),
    motor_eval 0 0 0 3 1500 (by rw [wheel_no_sat 0 0 0 hns 3, m3]; exact cround_lin 0 1500 hlin)
      (by norm_num) (by norm_num)]

lemma amplitude_nonneg (vx vy vr : ℚ) : 0 ≤ amplitude vx vy vr :=
  le_trans (le_max_left 0 _)
    (le_trans (le_max_left _ _) (le_trans (le_max_left _ _) (le_max_left _ _)))

/-! The all-ones scenario (vx, vy, vr) = (1, 1, 1), which saturates. -/

lemma mixed_ones :
    mixed 1 1 1 0 = -1 ∧ mixed 1 1 1 1 = 1 ∧ mixed 1 1 1 2 = 3 ∧ mixed 1 1 1 3 = 1 := by
  obtain ⟨m0, m1, m2, m3⟩ := mixed_eval_all 1 1 1 (by norm_num) (by norm_num) (by norm_num)
    (by norm_num) (by norm_num) (by norm_num)
  norm_num at m0 m1 m2 m3
  exact ⟨m0, m1, m2, m3⟩

lemma amp_ones : amplitude 1 1 1 = 3 := by
  obtain ⟨m0, m1, m2, m3⟩ := mixed_ones
  rw [amplitude_eval 1 1 1 _ _ _ _ m0 m1 m2 m3]
  norm_num [max_def]

lemma wheel_ones2 : wheel 1 1 1 2 = 2 := by
  obtain ⟨-, -, m2, -⟩ := mixed_ones
  rw [wheel_sat 1 1 1 (by rw [amp_ones]; norm_num) 2, m2, amp_ones]
  norm_num

lemma wheel_halves2 : wheel (1/2) (1/2) (1/2) 2 = 3/2 := by
  obtain ⟨m0, m1, m2, m3⟩ := mixed_eval_all (1/2) (1/2) (1/2) (by norm_num) (by norm_num)
    (by norm_num) (by norm_num) (by norm_num) (by norm_num)
  norm_num at m0 m1 m2 m3
  have hns : amplitude (1/2) (1/2) (1/2) ≤ 2 := by
    rw [amplitude_eval (1/2) (1/2) (1/2) _ _ _ _ m0 m1 m2 m3, abs_neg]
    norm_num [max_def, abs_of_nonneg]
  rw [wheel_no_sat (1/2) (1/2) (1/2) hns 2, m2]

/-- Claim C2: a pure-rotation command (vx = vy = 0, vr = r with r in [-1, 1] and
r nonzero) yields four wheel speeds of equal magnitude |r|, with each sign given
by the rotation column of the layout matrix. -/
theorem C2_pure_rotation (r : ℚ) (h1 : -1 ≤ r) (h2 : r ≤ 1) (h3 : r ≠ 0) :
    (∀ i, |wheel 0 0 r i| = |r|) ∧ (∀ i, wheel 0 0 r i = r * V i 2) := by
  obtain ⟨m0, m1, m2, m3⟩ := mixed_eval_all 0 0 r (by norm_num) (by norm_num) (by norm_num)
    (by norm_num) h1 h2
  have m0' : mixed 0 0 r 0 = -r := by rw [m0]; ring
  have m1' : mixed 0 0 r 1 = -r := by rw [m1]; ring
  have m2' : mixed 0 0 r 2 = r := by rw [m2]; ring
  have m3' : mixed 0 0 r 3 = r := by rw [m3]; ring
  have habs : |r| ≤ 1 := abs_le.mpr ⟨h1, h2⟩
  have hamp : amplitude 0 0 r = |r| := by
    rw [amplitude_eval 0 0 r _ _ _ _ m0' m1' m2' m3', abs_neg,
      max_eq_right (abs_nonneg r), max_self, max_self, max_self]
  have hns : amplitude 0 0 r ≤ 2 := by rw [hamp]; linarith
  have w0 : wheel 0 0 r 0 = -r := by rw [wheel_no_sat 0 0 r hns 0, m0']
  have w1 : wheel 0 0 r 1 = -r := by rw [wheel_no_sat 0 0 r hns 1, m1']
  have w2 : wheel 0 0 r 2 = r := by rw [wheel_no_sat 0 0 r hns 2, m2']
  have w3 : wheel 0 0 r 3 = r := by rw [wheel_no_sat 0 0 r hns 3, m3']
  constructor
  · intro i
    fin_cases i
    · show |wheel 0 0 r 0| = |r|
      rw [w0, abs_neg]
    · show |wheel 0 0 r 1| = |r|
      rw [w1, abs_neg]
    · show |wheel 0 0 r 2| = |r|
      rw [w2]
    · show |wheel 0 0 r 3| = |r|
      rw [w3]
  · intro i
    fin_cases i
    · show wheel 0 0 r 0 = r * V 0 2
      rw [w0]; simp only [V]; ring
    · show wheel 0 0 r 1 = r * V 1 2
      rw [w1]; simp only [V]; ring
    · show wheel 0 0 r 2 = r * V 2 2
      rw [w2]; simp only [V]; ring
    · show wheel 0 0 r 3 = r * V 3 2
      rw [w3]; simp only [V]; ring

/-- Witness for claim C2: the pure-rotation theorem applied at r = 1. -/
theorem C2_pure_rotation_witness :
    (-1 ≤ (1:ℚ)) ∧ ((1:ℚ) ≤ 1) ∧ ((1:ℚ) ≠ 0) ∧ |wheel 0 0 1 0| = |(1:ℚ)| :=
  ⟨by norm_num, by norm_num, by norm_num,
    (C2_pure_rotation 1 (by norm_num) (by norm_num) (by norm_num)).1 0⟩

/-- Claim C3: when the clamped inputs mix to a raw amplitude strictly above
comb_limit = 2, every maximal-magnitude wheel encodes exactly to an envelope
extreme (1400 or 1600), and all four motor values stay in [1400, 1600]. -/
theorem C3_saturation_extremes (vx vy vr : ℚ) (hA : 2 < amplitude vx vy vr) :
    (∀ i, |mixed vx vy vr i| = amplitude vx vy vr →
      motor vx vy vr i = 1400 ∨ motor vx vy vr i = 1600) ∧
    (∀ i, 1400 ≤ motor vx vy vr i ∧ motor vx vy vr i ≤ 1600) := by
  have hA0 : amplitude vx vy vr ≠ 0 := by
    intro h
    rw [h] at hA
    norm_num at hA
  refine ⟨?_, fun i => motor_envelope vx vy vr i⟩
  intro i hi
  have hdiv : amplitude vx vy vr / (amplitude vx vy vr / 2) = 2 := by
    rw [div_div_eq_mul_div, mul_comm, mul_div_assoc, div_self hA0, mul_one]
  rcases (abs_eq (by linarith)).mp hi with h | h
  · right
    refine motor_eval vx vy vr i 1600 ?_ (by norm_num) (by norm_num)
    rw [wheel_sat vx vy vr hA i, h, hdiv]
    exact cround_lin 2 1600 (by norm_num [DSHOT_NEUTRAL, max_velocity])
  · left
    refine motor_eval vx vy vr i 1400 ?_ (by norm_num) (by norm_num)
    rw [wheel_sat vx vy vr hA i, h, neg_div, hdiv]
    exact cround_lin (-2) 1400 (by norm_num [DSHOT_NEUTRAL, max_velocity])

/-- Witness for claim C3: the input (1, 1, 1) has raw amplitude 3 > 2, and its
maximal wheel (index 2) encodes to an envelope extreme. -/
theorem C3_saturation_witness :
    2 < amplitude 1 1 1 ∧ (motor 1 1 1 2 = 1400 ∨ motor 1 1 1 2 = 1600) := by
  have h2 : (2:ℚ) < amplitude 1 1 1 := by rw [amp_ones]; norm_num
  have hmax : |mixed 1 1 1 2| = amplitude 1 1 1 := by
    rw [amp_ones, mixed_ones.2.2.1]
    norm_num
  exact ⟨h2, (C3_saturation_extremes 1 1 1 h2).1 2 hmax⟩

/-- Claim C4 is false as stated: at input (1, 1, 1) with c = 1/2, the saturation
branch makes the mixer inhomogeneous, so scaling the inputs does not scale the
wheel speeds. -/
theorem C4_cex :
    (0:ℚ) < 1/2 ∧ (1/2:ℚ) ≤ 1 ∧
    wheel ((1/2) * 1) ((1/2) * 1) ((1/2) * 1) 2 ≠ (1/2) * wheel 1 1 1 2 := by
  refine ⟨by norm_num, by norm_num, ?_⟩
  rw [show ((1/2:ℚ) * 1) = 1/2 by norm_num, wheel_halves2, wheel_ones2]
  norm_num

/-- Claim C4 (amended): for inputs whose components lie in [-1, 1] and whose raw
mixed amplitude is at most comb_limit = 2 (below saturation), scaling all three
inputs by a positive constant c at most 1 scales every wheel speed by c. -/
theorem C4_linear_below_sat (vx vy vr c : ℚ)
    (hx1 : -1 ≤ vx) (hx2 : vx ≤ 1) (hy1 : -1 ≤ vy) (hy2 : vy ≤ 1)
    (hr1 : -1 ≤ vr) (hr2 : vr ≤ 1) (hsat : amplitude vx vy vr ≤ 2)
    (hc0 : 0 < c) (hc1 : c ≤ 1) (i : Fin 4) :
    wheel (c * vx) (c * vy) (c * vr) i = c * wheel vx vy vr i := by
  have hcx1 : -1 ≤ c * vx := by nlinarith
  have hcx2 : c * vx ≤ 1 := by nlinarith
  have hcy1 : -1 ≤ c * vy := by nlinarith
  have hcy2 : c * vy ≤ 1 := by nlinarith
  have hcr1 : -1 ≤ c * vr := by nlinarith
  have hcr2 : c * vr ≤ 1 := by nlinarith
  have hmix : ∀ j, mixed (c * vx) (c * vy) (c * vr) j = c * mixed vx vy vr j := by
    intro j
    rw [mixed_unclamped (c * vx) (c * vy) (c * vr) hcx1 hcx2 hcy1 hcy2 hcr1 hcr2 j,
      mixed_unclamped vx vy vr hx1 hx2 hy1 hy2 hr1 hr2 j]
    unfold rawMix
    ring
  have hampc : amplitude (c * vx) (c * vy) (c * vr) = c * amplitude vx vy vr := by
    unfold amplitude
    rw [hmix 0, hmix 1, hmix 2, hmix 3, abs_mul, abs_mul, abs_mul, abs_mul, abs_of_pos hc0]
    conv_rhs => rw [mul_max_of_nonneg _ _ hc0.le, mul_max_of_nonneg _ _ hc0.le,
      mul_max_of_nonneg _ _ hc0.le, mul_max_of_nonneg _ _ hc0.le, mul_zero]
  have hA0 : 0 ≤ amplitude vx vy vr := amplitude_nonneg vx vy vr
  have hsc : ¬ 1 < scaledAmp vx vy vr := by
    rw [scaledAmp_eq]
    push_neg
    linarith
  have hscc : ¬ 1 < scaledAmp (c * vx) (c * vy) (c * vr) := by
    rw [scaledAmp_eq, hampc]
    push_neg
    nlinarith
  unfold wheel
  rw [if_neg hscc, if_neg hsc, hmix i]

/-- Witness for the amended claim C4: the linearity theorem applied to the
forward command (1, 0, 0) with c = 1/2, wheel 0. -/
theorem C4_linear_witness :
    (-1 ≤ (1:ℚ)) ∧ ((1:ℚ) ≤ 1) ∧ (-1 ≤ (0:ℚ)) ∧ ((0:ℚ) ≤ 1) ∧
    amplitude 1 0 0 ≤ 2 ∧ (0:ℚ) < 1/2 ∧ ((1/2:ℚ) ≤ 1) ∧
    wheel ((1/2) * 1) ((1/2) * 0) ((1/2) * 0) 0 = (1/2) * wheel 1 0 0 0 := by
  have hamp : amplitude 1 0 0 ≤ 2 := by rw [scenario_forward.2.1]; norm_num
  exact ⟨by norm_num, by norm_num, by norm_num, by norm_num, hamp, by norm_num, by norm_num,
    C4_linear_below_sat 1 0 0 (1/2) (by norm_num) (by norm_num) (by norm_num) (by norm_num)
      (by norm_num) (by norm_num) hamp (by norm_num) (by norm_num) 0⟩

/-- Claim C5 is false as stated: for the command (1, 0, 0) the layout matrix
drives every wheel forward, so wheel 2 has speed 1 (not -1) and motor 2 encodes
to 1550 (not 1450). -/
theorem C5_cex : wheel 1 0 0 2 ≠ -1 ∧ motor 1 0 0 2 ≠ 1450 := by
  obtain ⟨⟨-, -, hw2, -⟩, -, hm⟩ := scenario_forward
  simp only [motorList, List.cons.injEq, and_true] at hm
  refine ⟨by rw [hw2]; norm_num, by rw [hm.2.2.1]; norm_num⟩

/-- Claim C5 (amended): the command (vx = 1, vy = 0, vr = 0) yields wheel speeds
[1, 1, 1, 1] (the first column of the layout matrix is all ones), amplitude 1,
no saturation, and the encoded motor command [1550, 1550, 1550, 1550] with
max_velocity = 50. -/
theorem C5_forward_scenario :
    (wheel 1 0 0 0 = 1 ∧ wheel 1 0 0 1 = 1 ∧ wheel 1 0 0 2 = 1 ∧ wheel 1 0 0 3 = 1) ∧
    amplitude 1 0 0 = 1 ∧ ¬ 1 < scaledAmp 1 0 0 ∧
    motorList 1 0 0 = [1550, 1550, 1550, 1550] ∧ max_velocity = 50 := by
  obtain ⟨hw, hamp, hm⟩ := scenario_forward
  refine ⟨hw, hamp, ?_, hm, rfl⟩
  rw [scaledAmp_eq, hamp]
  norm_num

/-- Claim C6 is false as stated: a received command with linear.x = 2 is
echoed with linear.x clamped to 1, so the echo is not identical to the
received command (nor to the stored pending command). -/
theorem C6_cex :
    (serial_out (some (on_vel_set (Twist.mk (Vec3.mk 2 0 0) (Vec3.mk 0 0 0))))).echo ≠
      some (on_vel_set (Twist.mk (Vec3.mk 2 0 0) (Vec3.mk 0 0 0))) ∧
    (serial_out (some (on_vel_set (Twist.mk (Vec3.mk 2 0 0) (Vec3.mk 0 0 0))))).echo ≠
      some (Twist.mk (Vec3.mk 2 0 0) (Vec3.mk 0 0 0)) := by
  constructor <;>
    norm_num [serial_out, on_vel_set, set_motors_msg, clampIn, clamp, min_def, max_def]

/-- Claim C6 (amended): the command republished after transmission is the
consumed pending command with its three planar fields clamped in place to
[-1, 1]; in particular it is verbatim whenever those fields already lie in
[-1, 1]. -/
theorem C6_echo_clamped (m : Twist) :
    (serial_out (some m)).echo =
      some (Twist.mk
        (Vec3.mk (clamp m.linear.x (-1) 1) (clamp m.linear.y (-1) 1) m.linear.z)
        (Vec3.mk m.angular.x m.angular.y (clamp m.angular.z (-1) 1))) ∧
    (-1 ≤ m.linear.x → m.linear.x ≤ 1 → -1 ≤ m.linear.y → m.linear.y ≤ 1 →
     -1 ≤ m.angular.z → m.angular.z ≤ 1 → (serial_out (some m)).echo = some m) := by
  constructor
  · rfl
  · intro hx1 hx2 hy1 hy2 hz1 hz2
    have h : set_motors_msg m = m := by
      unfold set_motors_msg
      rw [clampIn_eq_self _ hx1 hx2, clampIn_eq_self _ hy1 hy2, clampIn_eq_self _ hz1 hz2]
    simp [serial_out, h]

/-- Witness for the amended claim C6: the zero command is already in range and
is echoed verbatim. -/
theorem C6_echo_witness :
    (-1 ≤ (0:ℚ)) ∧ ((0:ℚ) ≤ 1) ∧
    (serial_out (some (Twist.mk (Vec3.mk 0 0 0) (Vec3.mk 0 0 0)))).echo =
      some (Twist.mk (Vec3.mk 0 0 0) (Vec3.mk 0 0 0)) :=
  ⟨by norm_num, by norm_num,
    (C6_echo_clamped (Twist.mk (Vec3.mk 0 0 0) (Vec3.mk 0 0 0))).2 (by norm_num) (by norm_num)
      (by norm_num) (by norm_num) (by norm_num) (by norm_num)⟩

/-- Claim C7: an idle tick (no pending command) transmits exactly the
raw-inertial query and the attitude query and no motor frame, and every tick
ends with the pending slot empty. -/
theorem C7_idle_tick :
    (serial_out none).frames = [Frame.qryRawImu, Frame.qryAttitude] ∧
    (∀ s, (serial_out s).pending = none) := by
  refine ⟨rfl, ?_⟩
  intro s
  cases s <;> rfl

/-- Claim C10: the subscription callback zeroes linear.z, angular.x and
angular.y before storing the message, so every stored pending command is
planar, and the command echoed after consumption keeps these three fields
zero. -/
theorem C10_callback_planarizes (msg : Twist) :
    ((on_vel_set msg).linear.z = 0 ∧ (on_vel_set msg).angular.x = 0 ∧
      (on_vel_set msg).angular.y = 0) ∧
    (∀ e, (serial_out (some (on_vel_set msg))).echo = some e →
      e.linear.z = 0 ∧ e.angular.x = 0 ∧ e.angular.y = 0) := by
  refine ⟨⟨rfl, rfl, rfl⟩, ?_⟩
  intro e he
  simp only [serial_out, Option.some.injEq] at he
  subst he
  exact ⟨rfl, rfl, rfl⟩

/-- Witness for claim C10: a concrete out-of-range, non-planar command is
stored planarized and its echo keeps the planar-only shape. -/
theorem C10_callback_witness :
    (serial_out (some (on_vel_set (Twist.mk (Vec3.mk 1 2 3) (Vec3.mk 4 5 6))))).echo =
      some (Twist.mk (Vec3.mk 1 1 0) (Vec3.mk 0 0 1)) ∧
    (Twist.mk (Vec3.mk 1 1 0) (Vec3.mk 0 0 1)).linear.z = 0 ∧
    (Twist.mk (Vec3.mk 1 1 0) (Vec3.mk 0 0 1)).angular.x = 0 ∧
    (Twist.mk (Vec3.mk 1 1 0) (Vec3.mk 0 0 1)).angular.y = 0 := by
  have he : (serial_out (some (on_vel_set (Twist.mk (Vec3.mk 1 2 3) (Vec3.mk 4 5 6))))).echo =
      some (Twist.mk (Vec3.mk 1 1 0) (Vec3.mk 0 0 1)) := by
    norm_num [serial_out, on_vel_set, set_motors_msg, clampIn, clamp, min_def, max_def]
  exact ⟨he, (C10_callback_planarizes (Twist.mk (Vec3.mk 1 2 3) (Vec3.mk 4 5 6))).2 _ he⟩

/-! Round-trip of the wire codec. -/

lemma feedFrom_nil (p : RxState × Bool) : feedFrom p [] = p := rfl

lemma feedFrom_cons (p : RxState × Bool) (b : ℕ) (bs : List ℕ) :
    feedFrom p (b :: bs) = feedFrom (recv p.1 b) bs := rfl

lemma feedFrom_append (p : RxState × Bool) (l1 l2 : List ℕ) :
    feedFrom p (l1 ++ l2) = feedFrom (feedFrom p l1) l2 :=
  List.foldl_append _ _ l1 l2

lemma feed_data (n op : ℕ) (acc rest : List ℕ) (c : Bool) (hne : rest ≠ [])
    (hn : n = acc.length + rest.length) :
    feedFrom (RxState.rdata n op acc, c) rest = (RxState.rsum n op (acc ++ rest), false) := by
  induction rest generalizing acc c with
  | nil => exact absurd rfl hne
  | cons b rest ih =>
    rw [feedFrom_cons]
    cases rest with
    | nil =>
      have hcond : ¬ acc.length + 1 < n := by
        simp only [List.length_cons, List.length_nil] at hn
        omega
      simp [recv, hcond, feedFrom_nil]
    | cons b2 rest2 =>
      have hcond : acc.length + 1 < n := by
        simp only [List.length_cons] at hn
        omega
      have hn2 : n = (acc ++ [b]).length + (b2 :: rest2).length := by
        simp only [List.length_append, List.length_cons, List.length_nil] at hn ⊢
        omega
      rw [show recv (RxState.rdata n op acc) b = (RxState.rdata n op (acc ++ [b]), false) from
        by simp [recv, hcond]]
      rw [ih (acc ++ [b]) false (by simp) hn2]
      simp

/-- Claim C9: serializing any frame of the wire protocol (opcode byte plus
payload bytes) and feeding the produced bytes one at a time into the fresh
incremental parser assembles a complete frame carrying exactly the original
opcode and payload, with the final feed reporting completion. -/
theorem C9_codec_roundtrip (op : ℕ) (payload : List ℕ) (hop : op < 256)
    (hlen : payload.length < 256) (hbytes : ∀ b ∈ payload, b < 256) :
    feedAll RxState.seek1 (mspEncode op payload) = (RxState.complete op payload, true) := by
  cases payload with
  | nil => simp [feedAll, mspEncode, feedFrom, recv, checksum]
  | cons b bs =>
    have hstart : feedAll RxState.seek1 (mspEncode op (b :: bs)) =
        feedFrom (RxState.rdata (b :: bs).length op [], false)
          ((b :: bs) ++ [checksum ((b :: bs).length :: op :: (b :: bs))]) := rfl
    rw [hstart, feedFrom_append,
      feed_data (b :: bs).length op [] (b :: bs) false (by simp) (by simp),
      List.nil_append, feedFrom_cons, feedFrom_nil]
    simp [recv]

/-- Witness for claim C9: the set-motor opcode 214 with payload [5, 6]
round-trips through the codec. -/
theorem C9_codec_witness :
    (214:ℕ) < 256 ∧ ([5, 6] : List ℕ).length < 256 ∧ (∀ x ∈ ([5, 6] : List ℕ), x < 256) ∧
    feedAll RxState.seek1 (mspEncode 214 [5, 6]) = (RxState.complete 214 [5, 6], true) :=
  ⟨by norm_num, by norm_num, by decide,
    C9_codec_roundtrip 214 [5, 6] (by norm_num) (by norm_num) (by decide)⟩

end RoverBase
